import Mathlib

/-
Verification of the TAC payment-ledger reconciliation model
(src/tac_admin_app.py, with src/04_Accounting.py as an earlier revision).

Amounts and fees are modelled as exact rationals (ℚ): the Python source
computes with floats, but every decision in the engine is an order
comparison or a sum guarded by an explicit tolerance (1e-6) that the spec
introduces precisely to absorb float rounding, so the decision structure
is captured exactly over ℚ.  Sheet cells are strings; the string-level
helpers (_to_float, installment-slot parsing, the "%.2f" formatting) are
modelled character by character from the source.

Rational arithmetic is written through the wrappers qadd/qsub/qmul/qsum
below, which are proved equal to the standard ℚ operations (qadd_eq etc.);
the wrappers are definitionally computable all the way down, so concrete
runs of the engine can be checked by the kernel.
-/

namespace TAC

/-! ### Computable rational arithmetic layer -/

/-- Addition on ℚ via Rat.divInt; proved equal to + in qadd_eq. -/
def qadd (a b : ℚ) : ℚ :=
  Rat.divInt (a.num * (b.den : ℤ) + b.num * (a.den : ℤ)) ((a.den : ℤ) * (b.den : ℤ))

/-- Negation on ℚ via Rat.divInt; proved equal to Neg.neg in qneg_eq. -/
def qneg (a : ℚ) : ℚ :=
  Rat.divInt (-a.num) (a.den : ℤ)

/-- Subtraction on ℚ; proved equal to Sub.sub in qsub_eq. -/
def qsub (a b : ℚ) : ℚ :=
  qadd a (qneg b)

/-- Multiplication on ℚ via Rat.divInt; proved equal to * in qmul_eq. -/
def qmul (a b : ℚ) : ℚ :=
  Rat.divInt (a.num * b.num) ((a.den : ℤ) * (b.den : ℤ))

/-- Sum of a list of rationals via qadd; proved equal to List.sum in qsum_eq. -/
def qsum : List ℚ → ℚ
  | [] => 0
  | a :: t => qadd a (qsum t)

/-! ### Business-rule constants (tac_admin_app.py 72-74) -/

/-- Price of a full payment (FULL_PRICE = 90.0). -/
def FULL_PRICE : ℚ := 90

/-- Price of one installment (INSTALLMENT_PRICE = 15.0). -/
def INSTALLMENT_PRICE : ℚ := 15

/-- Number of installment slots (MAX_INSTALLMENTS = 6). -/
def MAX_INSTALLMENTS : ℕ := 6

/-- The absolute tolerance 1e-6 used by every isclose / overpayment guard. -/
def eps : ℚ := Rat.divInt 1 1000000

/-- The default relative tolerance 1e-9 of Python math.isclose. -/
def relTol : ℚ := Rat.divInt 1 1000000000

/-! ### Model of Python float parsing (`_to_float`, tac_admin_app.py 206-210)

`_to_float(x, default=0.0)` runs `float(str(x).replace(",", "").strip())`
and returns the default on any exception.  The accepted inputs are
modelled as numeric literals: optional sign, digits with an optional
fractional part, and an optional exponent.  (Python's float() additionally
accepts inf/nan spellings and underscore digit separators; those forms
are treated as unparseable here — no claim depends on them.) -/

/-- Numeric value of a list of decimal digit characters (most significant first). -/
def digitsToNat (l : List Char) : ℕ :=
  l.foldl (fun a c => 10 * a + (c.toNat - 48)) 0

/-- Drop every comma, modelling str.replace(",", ""). -/
def removeCommasList (l : List Char) : List Char :=
  l.filter (fun c => !(c == ','))

/-- Drop leading and trailing whitespace, modelling str.strip(). -/
def stripList (l : List Char) : List Char :=
  ((l.dropWhile (fun c => c.isWhitespace)).reverse.dropWhile (fun c => c.isWhitespace)).reverse

/-- Powers of ten. -/
def pow10 (n : ℕ) : ℕ := 10 ^ n

/-- The rational value sign * (m / 10^k) * 10^e of a parsed decimal literal,
where m is the joined integer-and-fraction digit string and k the number of
fractional digits. -/
def decToRat (neg : Bool) (m k : ℕ) (e : ℤ) : ℚ :=
  let n : ℤ := if neg then -(m : ℤ) else (m : ℤ)
  match e with
  | Int.ofNat a => Rat.divInt (n * (pow10 a : ℤ)) (pow10 k : ℤ)
  | Int.negSucc a => Rat.divInt n ((pow10 k : ℤ) * (pow10 (a + 1) : ℤ))

/-- Parse the exponent part after the letter e/E: optional sign then digits,
consuming the whole remainder. -/
def parseExponent (l : List Char) : Option ℤ :=
  let sp : Bool × List Char :=
    match l with
    | '+' :: t => (false, t)
    | '-' :: t => (true, t)
    | t => (false, t)
  let ds := sp.2.takeWhile (fun c => c.isDigit)
  let rest := sp.2.dropWhile (fun c => c.isDigit)
  if ds.isEmpty || !rest.isEmpty then none
  else some (if sp.1 then -(digitsToNat ds : ℤ) else (digitsToNat ds : ℤ))

/-- Parse the unsigned mantissa: digits with an optional point, at least one
digit overall; returns the joined digits, the fractional-digit count, and
the unconsumed remainder. -/
def parseMantissa (l : List Char) : Option (ℕ × ℕ × List Char) :=
  let ip := l.takeWhile (fun c => c.isDigit)
  let r1 := l.dropWhile (fun c => c.isDigit)
  match r1 with
  | '.' :: r2 =>
      let fp := r2.takeWhile (fun c => c.isDigit)
      let r3 := r2.dropWhile (fun c => c.isDigit)
      if ip.isEmpty && fp.isEmpty then none
      else some (digitsToNat (ip ++ fp), fp.length, r3)
  | _ => if ip.isEmpty then none else some (digitsToNat ip, 0, r1)

/-- Parse a full float literal from a character list. -/
def pyFloatChars (l : List Char) : Option ℚ :=
  let sp : Bool × List Char :=
    match l with
    | '+' :: t => (false, t)
    | '-' :: t => (true, t)
    | t => (false, t)
  match parseMantissa sp.2 with
  | none => none
  | some m =>
      match m.2.2 with
      | [] => some (decToRat sp.1 m.1 m.2.1 0)
      | 'e' :: t =>
          match parseExponent t with
          | some e => some (decToRat sp.1 m.1 m.2.1 e)
          | none => none
      | 'E' :: t =>
          match parseExponent t with
          | some e => some (decToRat sp.1 m.1 m.2.1 e)
          | none => none
      | _ => none

/-- Comma removal, strip, then float parsing: the successful path of
`float(str(x).replace(",", "").strip())`. -/
def pyNumber (s : String) : Option ℚ :=
  pyFloatChars (stripList (removeCommasList s.toList))

/-- Model of `_to_float` (tac_admin_app.py 206-210): total, returns the
default 0.0 whenever the string is not a numeric literal. -/
def _to_float (x : String) : ℚ :=
  match pyNumber x with
  | some q => q
  | none => 0

/-! ### Sheet rows -/

/-- One Payments_Ledger row (ACC_LEDGER_COLS, tac_admin_app.py 83-87).
All cells are stored as strings, exactly as in the sheet. -/
structure LedgerRow where
  receipt_id : String
  registration_id : String
  payment_date : String
  amount : String
  method : String
  note : String
  entered_by : String
  installment_number : String
deriving DecidableEq

/-- One Accounting master row (ACC_MASTER_COLS, tac_admin_app.py 77-82). -/
structure MasterRow where
  registration_id : String
  student_name : String
  course : String
  phone : String
  payment_plan : String
  installment_count : String
  total_fee : String
  paid_to_date : String
  remaining : String
  status : String
  last_payment_date : String
  last_receipt_id : String
deriving DecidableEq

/-- The fields of a registration-sheet row used by the engine
(REG_COLUMN_MAP, tac_admin_app.py 90-98); total_fee is the raw cell text. -/
structure RegRow where
  registration_id : String
  student_name : String
  course : String
  phone : String
  total_fee : String
deriving DecidableEq

/-! ### Installment-slot parsing (tac_admin_app.py 491-500) -/

/-- Split a character list at commas, modelling str.split(","). -/
def splitCommas : List Char → List (List Char)
  | [] => [[]]
  | c :: t =>
      match splitCommas t with
      | [] => [[c]]
      | h :: hs => if c = ',' then [] :: h :: hs else (c :: h) :: hs

/-- Python str.isdigit on a character list: nonempty and all digits. -/
def strIsDigits (l : List Char) : Bool :=
  !l.isEmpty && l.all (fun c => c.isDigit)

/-- The slot numbers of one ledger row: strip the Installment_Number cell,
split on commas, strip each token, and keep the all-digit tokens as
numbers (the loop body of _parse_paid_installments_from_ledger). -/
def rowSlots (r : LedgerRow) : Finset ℕ :=
  (((splitCommas (stripList r.installment_number.toList)).map stripList).filterMap
    (fun t => if strIsDigits t then some (digitsToNat t) else none)).toFinset

/-- Model of `_parse_paid_installments_from_ledger` (tac_admin_app.py
491-500): the union of the slot numbers over the student's ledger rows. -/
def _parse_paid_installments_from_ledger (ledger : List LedgerRow) (regId : String) : Finset ℕ :=
  ((ledger.filter (fun r => r.registration_id == regId)).map rowSlots).foldl
    (fun a s => a ∪ s) ∅

/-! ### Payments page: fee, cached paid-to-date, validation
(tac_admin_app.py 556-613) -/

/-- First master row for the registration id (iloc[0] of the filtered frame). -/
def findMaster (master : List MasterRow) (regId : String) : Option MasterRow :=
  master.find? (fun r => r.registration_id == regId)

/-- First registration row for the registration id. -/
def findReg (reg : List RegRow) (regId : String) : Option RegRow :=
  reg.find? (fun r => r.registration_id == regId)

/-- Line 562: paid_to_date is read from the master snapshot's Paid_To_Date
cell, 0.0 when the student has no master row. -/
def pagePaidToDate (master : List MasterRow) (regId : String) : ℚ :=
  match findMaster master regId with
  | some ex => _to_float ex.paid_to_date
  | none => 0

/-- Line 563: the master snapshot's Total_Fee cell, 0.0 when absent. -/
def pageExistingTotal (master : List MasterRow) (regId : String) : ℚ :=
  match findMaster master regId with
  | some ex => _to_float ex.total_fee
  | none => 0

/-- Line 564: the master's fee if positive, else the registration-sheet fee
if positive, else FULL_PRICE. -/
def effectiveTotalFee (existingTotal regTotal : ℚ) : ℚ :=
  if 0 < existingTotal then existingTotal
  else if 0 < regTotal then regTotal else FULL_PRICE

/-- Line 565: remaining = max(effective_total_fee - paid_to_date, 0.0). -/
def pageRemaining (fee paid : ℚ) : ℚ :=
  max (qsub fee paid) 0

/-- A candidate payment: a full payment, or an installment payment given by
the set of slot checkboxes the operator toggles on. -/
inductive Proposal where
  | full : Proposal
  | installments (chosen : Finset ℕ) : Proposal

/-- Lines 591-596: the slots that end up selected.  For each i in 1..6 the
checkbox is disabled (and force-checked) when the slot is already locked,
and the loop keeps i only when it is checked and not already locked — so a
locked slot is silently excluded from the selection. -/
def instSelected (chosen locked : Finset ℕ) : Finset ℕ :=
  (Finset.Icc 1 MAX_INSTALLMENTS).filter (fun i => i ∈ chosen ∧ i ∉ locked)

/-- Line 598: pay_amount = INSTALLMENT_PRICE * len(inst_selected). -/
def instAmount (chosen locked : Finset ℕ) : ℚ :=
  qmul INSTALLMENT_PRICE (((instSelected chosen locked).card : ℕ) : ℚ)

/-- Line 585: the full-payment amount min(FULL_PRICE, remaining) (with
remaining replaced by FULL_PRICE when the effective fee is not positive;
the effective fee is in fact always positive, see C5/C9). -/
def fullAmount (fee paid : ℚ) : ℚ :=
  min FULL_PRICE (if 0 < fee then pageRemaining fee paid else FULL_PRICE)

/-- The accept/reject decision of the payments page for one proposal,
given the effective fee, the paid-to-date value used for the decision, and
the locked slots (tac_admin_app.py 584-609).  Returns the accepted amount
and slot set, or none when the save button is disabled / the selection is
cleared by the overpayment guard (lines 600-602 and 607). -/
def validate_and_price (fee paid : ℚ) (locked : Finset ℕ) : Proposal → Option (ℚ × Finset ℕ)
  | Proposal.full =>
      if 0 < fullAmount fee paid then some (fullAmount fee paid, (∅ : Finset ℕ)) else none
  | Proposal.installments chosen =>
      if 0 < fee ∧ eps < qsub (qadd paid (instAmount chosen locked)) fee then none
      else if 0 < instAmount chosen locked ∧ (instSelected chosen locked).Nonempty then
        some (instAmount chosen locked, instSelected chosen locked)
      else none

/-- Python math.isclose(x, 0.0, abs_tol=1e-6):
|x| <= max(rel_tol * |x|, abs_tol) with the default rel_tol 1e-9. -/
def isclose0 (x : ℚ) : Prop :=
  |x| ≤ max (qmul relTol |x|) eps

instance isclose0.instDecidable : DecidablePred isclose0 := fun x =>
  inferInstanceAs (Decidable (|x| ≤ max (qmul relTol |x|) eps))

/-- Line 612: new_remaining = max(effective_total_fee - new_paid_to_date, 0.0). -/
def newRemaining (fee newPaid : ℚ) : ℚ :=
  max (qsub fee newPaid) 0

/-- Line 613: status written after an accepted payment. -/
def newStatusAfterAccept (fee newPaid : ℚ) : String :=
  if isclose0 (newRemaining fee newPaid) then "Completed" else "Installments"

/-! ### Per-student payment sessions

One student's evolving state across payment-page saves: the cached
Paid_To_Date of the master row (0 before the first accepted payment), and
the amounts and slot sets of the student's ledger rows.  On an accepted
save the app appends the ledger row and upserts the master row with
paid_to_date + amount (lines 611-644).  The two-decimal string
serialization of the sheet round-trips these values exactly for all
in-scope amounts and is not repeated here. -/

structure PayState where
  paidCached : ℚ
  amounts : List ℚ
  slots : List (Finset ℕ)

/-- The state of a student with no master row and no ledger rows. -/
def initState : PayState := ⟨0, [], []⟩

/-- The locked slots derived from the session's ledger rows (the Finset-level
counterpart of _parse_paid_installments_from_ledger). -/
def lockedOf (st : PayState) : Finset ℕ :=
  st.slots.foldl (fun a s => a ∪ s) ∅

/-- One payment-page save: validate the proposal against the cached
paid-to-date and the locked slots; on acceptance append the ledger row and
update the cached paid-to-date, otherwise leave the state unchanged. -/
def applyPayment (fee : ℚ) (st : PayState) (p : Proposal) : PayState :=
  match validate_and_price fee st.paidCached (lockedOf st) p with
  | none => st
  | some a => ⟨qadd st.paidCached a.1, st.amounts ++ [a.1], st.slots ++ [a.2]⟩

/-! ### Snapshot recomputation (`recalc_master_for_registration`,
tac_admin_app.py 707-760) -/

/-- Lines 708-713: total_paid = sum of _to_float(Amount) over the
student's ledger rows. -/
def totalPaid (ledger : List LedgerRow) (regId : String) : ℚ :=
  qsum ((ledger.filter (fun r => r.registration_id == regId)).map (fun r => _to_float r.amount))

/-- Lines 722-741: the effective total fee.  With a master row: its
Total_Fee if positive, else FULL_PRICE (existing_total is the same parsed
cell, so the reg-sheet fee is not consulted); the inner redundant branch of
line 741 is kept.  Without a master row: the registration-sheet fee if a
row matches and its fee is positive, else FULL_PRICE. -/
def recalcEff (master : List MasterRow) (reg : List RegRow) (regId : String) : ℚ :=
  match findMaster master regId with
  | some ex =>
      if _to_float ex.total_fee ≤ 0 then
        (if 0 < _to_float ex.total_fee then _to_float ex.total_fee else FULL_PRICE)
      else _to_float ex.total_fee
  | none =>
      match findReg reg regId with
      | some r => if 0 < _to_float r.total_fee then _to_float r.total_fee else FULL_PRICE
      | none => FULL_PRICE

/-- Line 743: remaining = max(effective_total_fee - total_paid, 0.0). -/
def recalcRemaining (master : List MasterRow) (ledger : List LedgerRow) (regId : String)
    (reg : List RegRow) : ℚ :=
  max (qsub (recalcEff master reg regId) (totalPaid ledger regId)) 0

/-- Line 744: Completed when remaining is close to 0 (tolerance 1e-6);
else Unpaid when total_paid == 0; else Installments. -/
def recalcStatus (master : List MasterRow) (ledger : List LedgerRow) (regId : String)
    (reg : List RegRow) : String :=
  if isclose0 (recalcRemaining master ledger regId reg) then "Completed"
  else if totalPaid ledger regId = 0 then "Unpaid"
  else "Installments"

/-- Lines 722-737: student name on the recomputed row (master row first,
then the registration sheet, then empty). -/
def recalcName (master : List MasterRow) (reg : List RegRow) (regId : String) : String :=
  match findMaster master regId with
  | some ex => ex.student_name
  | none =>
      match findReg reg regId with
      | some r => r.student_name
      | none => ""

/-- Course on the recomputed row. -/
def recalcCourse (master : List MasterRow) (reg : List RegRow) (regId : String) : String :=
  match findMaster master regId with
  | some ex => ex.course
  | none =>
      match findReg reg regId with
      | some r => r.course
      | none => ""

/-- Phone on the recomputed row. -/
def recalcPhone (master : List MasterRow) (reg : List RegRow) (regId : String) : String :=
  match findMaster master regId with
  | some ex => ex.phone
  | none =>
      match findReg reg regId with
      | some r => r.phone
      | none => ""

/-- Line 751: PaymentPlan kept from the master row, "Installments" otherwise. -/
def recalcPlan (master : List MasterRow) (regId : String) : String :=
  match findMaster master regId with
  | some ex => ex.payment_plan
  | none => "Installments"

/-- Line 758: LastReceiptID kept from the master row, empty otherwise. -/
def recalcLastReceipt (master : List MasterRow) (regId : String) : String :=
  match findMaster master regId with
  | some ex => ex.last_receipt_id
  | none => ""

/-- The integer nearest 100*x, modelling the rounding of f-string "%.2f".
(Python rounds the underlying double half-to-even; exact ties and sub-ulp
differences are float artifacts outside this model, and every value the
app formats is tie-free at two decimals.) -/
def round100 (x : ℚ) : ℤ :=
  Int.fdiv (200 * x.num + (x.den : ℤ)) (2 * (x.den : ℤ))

/-- Two right-aligned digits. -/
def natPad2 (r : ℕ) : String :=
  (if r < 10 then ("0" : String) else "") ++ toString r

/-- Model of f"{x:.2f}": the value rounded to two decimals and rendered
with exactly two fractional digits. -/
def format2 (x : ℚ) : String :=
  (if round100 x < 0 then ("-" : String) else "") ++
    toString ((round100 x).natAbs / 100) ++ ("." : String) ++ natPad2 ((round100 x).natAbs % 100)

/-- Lines 746-759: the master row written by recalc_master_for_registration.
`now` stands for datetime.now().strftime("%Y-%m-%d %H:%M") at the time of
the call (line 757). -/
def recalcMasterRow (master : List MasterRow) (ledger : List LedgerRow) (regId : String)
    (reg : List RegRow) (now : String) : MasterRow :=
  { registration_id := regId,
    student_name := recalcName master reg regId,
    course := recalcCourse master reg regId,
    phone := recalcPhone master reg regId,
    payment_plan := recalcPlan master regId,
    installment_count := "6",
    total_fee := format2 (recalcEff master reg regId),
    paid_to_date := format2 (totalPaid ledger regId),
    remaining := format2 (recalcRemaining master ledger regId reg),
    status := recalcStatus master ledger regId reg,
    last_payment_date := now,
    last_receipt_id := recalcLastReceipt master regId }

/-- Model of upsert_master_row (tac_admin_app.py 212-230): overwrite the
first row with the same Registration_ID, or append. -/
def upsertMaster (master : List MasterRow) (row : MasterRow) : List MasterRow :=
  match master with
  | [] => [row]
  | r :: rs =>
      if r.registration_id == row.registration_id then row :: rs
      else r :: upsertMaster rs row

/-- The page-level decision (lines 556-609 combined): the effective fee is
derived from the master row and the registration-sheet fee, paid_to_date is
read from the cached master row, and the locked slots are parsed from the
ledger. -/
def pageValidate (master : List MasterRow) (ledger : List LedgerRow) (regId : String)
    (regTotal : ℚ) (p : Proposal) : Option (ℚ × Finset ℕ) :=
  validate_and_price (effectiveTotalFee (pageExistingTotal master regId) regTotal)
    (pagePaidToDate master regId)
    (_parse_paid_installments_from_ledger ledger regId) p

/-! ### Corrections page: edit and delete (tac_admin_app.py 825-870) -/

/-- Delete the first ledger row carrying the receipt id (the row found by
find_ledger_rownum_by_receipt, removed by delete_rows); no-op when the
receipt id is absent (the handler stops before deleting). -/
def eraseReceipt : List LedgerRow → String → List LedgerRow
  | [], _ => []
  | r :: rs, rid => if r.receipt_id == rid then rs else r :: eraseReceipt rs rid

/-- Overwrite the first ledger row carrying the receipt id; no-op when the
receipt id is absent (the handler stops before writing). -/
def updateReceipt : List LedgerRow → String → LedgerRow → List LedgerRow
  | [], _, _ => []
  | r :: rs, rid, new =>
      if r.receipt_id == rid then new :: rs else r :: updateReceipt rs rid new

/-- Line 827: the nonempty stripped comma tokens of the Installment
Number(s) input. -/
def editTokens (s : String) : List (List Char) :=
  ((splitCommas s.toList).map stripList).filter (fun t => !t.isEmpty)

/-- Join tokens back with commas (",".join). -/
def joinCommas : List (List Char) → List Char
  | [] => []
  | [t] => t
  | t :: ts => t ++ ',' :: joinCommas ts

/-- Line 828: the only validation of the edited slots — every token must be
an all-digit string whose value lies in 1..MAX_INSTALLMENTS (an empty token
list passes).  No comparison with other rows' slots is made. -/
def editAccepted (instVal : String) : Bool :=
  let toks := editTokens instVal
  toks.isEmpty ||
    toks.all (fun t =>
      strIsDigits t && decide (1 ≤ digitsToNat t) && decide (digitsToNat t ≤ MAX_INSTALLMENTS))

/-- The save-changes handler (lines 825-848): on a validation failure the
handler stops and the ledger is unchanged; otherwise the selected row is
overwritten with the new field values (amount re-rendered with "%.2f",
slots re-joined with commas) keeping its Receipt_ID. -/
def applyEdit (ledger : List LedgerRow) (rid regIdVal payDateVal : String) (amountVal : ℚ)
    (methodVal noteVal enteredByVal instVal : String) : List LedgerRow :=
  if editAccepted instVal then
    updateReceipt ledger rid
      { receipt_id := rid, registration_id := regIdVal, payment_date := payDateVal,
        amount := format2 amountVal, method := methodVal, note := noteVal,
        entered_by := enteredByVal,
        installment_number := String.mk (joinCommas (editTokens instVal)) }
  else ledger

/-- The invariant of a payment session: the cached master value agrees with
the sum of ledger amounts, and that sum never exceeds fee + eps. -/
def PayInv (fee : ℚ) (st : PayState) : Prop :=
  st.paidCached = st.amounts.sum ∧ st.amounts.sum ≤ fee + eps

/-! ### Concrete states used by counterexamples and witnesses -/

/-- A stale master snapshot: Paid_To_Date "0.00" although the ledger below
already holds a 90.00 payment. -/
def c3Master : List MasterRow :=
  [⟨"S1", "Student", "Course", "Phone", "Installments", "6", "90.00", "0.00", "90.00",
    "Unpaid", "2025-01-01 10:00", "R1"⟩]

/-- The same master snapshot, in sync with the ledger below. -/
def c3SyncedMaster : List MasterRow :=
  [⟨"S1", "Student", "Course", "Phone", "Installments", "6", "90.00", "90.00", "0.00",
    "Completed", "2025-01-01 10:00", "R1"⟩]

/-- A ledger holding one 90.00 payment for student S1. -/
def c3Ledger : List LedgerRow :=
  [⟨"R1", "S1", "2025-01-01 10:00", "90.00", "Cash", "", "Admin", ""⟩]

/-- A transaction paying slots 1,2. -/
def c6t : LedgerRow := ⟨"R12", "S1", "2025-01-01 10:00", "30.00", "Cash", "", "Admin", "1,2"⟩

/-- A ledger tail holding the slots-3,4,5,6 transaction. -/
def c6B : List LedgerRow :=
  [⟨"R3456", "S1", "2025-01-02 10:00", "60.00", "Cash", "", "Admin", "3,4,5,6"⟩]

/-- A ledger with one 15.00 installment payment for S1. -/
def c7Ledger : List LedgerRow :=
  [⟨"R1", "S1", "2025-01-01 10:00", "15.00", "Cash", "", "Admin", "1"⟩]

/-- A registration sheet giving S1 a fee of 90. -/
def c7Reg : List RegRow := [⟨"S1", "Student", "Course", "Phone", "90"⟩]

/-- A ledger row already holding installment slot 1. -/
def c8r1 : LedgerRow := ⟨"R1", "S1", "2025-01-01 10:00", "15.00", "Cash", "", "Admin", "1"⟩

/-- A two-receipt ledger for S1 with slots 1 and 2 paid. -/
def c8Ledger : List LedgerRow :=
  [c8r1, ⟨"R2", "S1", "2025-01-01 11:00", "15.00", "Cash", "", "Admin", "2"⟩]

/-- A ledger with one well-formed and one corrupt Amount cell. -/
def c10Ledger : List LedgerRow :=
  [⟨"R1", "S1", "2025-01-01 10:00", "15.00", "Cash", "", "Admin", ""⟩,
    ⟨"R2", "S1", "2025-01-01 11:00", "oops", "Cash", "", "Admin", ""⟩]

/-! ### Equivalence of the computable arithmetic layer with the standard
operations, and basic facts -/

lemma qadd_eq (a b : ℚ) : qadd a b = a + b := by
  have ha : ((a.den : ℚ)) ≠ 0 := by exact_mod_cast a.den_ne_zero
  have hb : ((b.den : ℚ)) ≠ 0 := by exact_mod_cast b.den_ne_zero
  rw [qadd, Rat.divInt_eq_div]
  push_cast
  conv_rhs => rw [← Rat.num_div_den a, ← Rat.num_div_den b]
  rw [div_add_div _ _ ha hb]
  ring_nf

lemma qneg_eq (a : ℚ) : qneg a = -a := by
  rw [qneg, Rat.divInt_eq_div]
  push_cast
  rw [neg_div]
  rw [Rat.num_div_den a]

lemma qmul_eq (a b : ℚ) : qmul a b = a * b := by
  rw [qmul, Rat.divInt_eq_div]
  push_cast
  rw [← div_mul_div_comm]
  rw [Rat.num_div_den a, Rat.num_div_den b]

lemma qsub_eq (a b : ℚ) : qsub a b = a - b := by
  rw [qsub, qadd_eq, qneg_eq, sub_eq_add_neg]

lemma qsum_eq (l : List ℚ) : qsum l = l.sum := by
  induction l with
  | nil => rfl
  | cons a t ih => rw [qsum, qadd_eq, ih, List.sum_cons]

lemma eps_pos : 0 < eps := by decide

lemma FULL_PRICE_pos : 0 < FULL_PRICE := by decide

/-- For nonnegative x, math.isclose(x, 0, abs_tol=1e-6) is exactly x <= 1e-6
(the relative term 1e-9*x never dominates for x in the truth region). -/
lemma isclose0_nonneg_iff (x : ℚ) (hx : 0 ≤ x) : isclose0 x ↔ x ≤ eps := by
  unfold isclose0
  rw [abs_of_nonneg hx, qmul_eq]
  constructor
  · intro h
    rcases max_cases (relTol * x) eps with ⟨he, _⟩ | ⟨he, _⟩
    · rw [he] at h
      have hrt : relTol < 1 := by decide
      have h0 : 0 < eps := eps_pos
      nlinarith
    · rw [he] at h
      exact h
  · intro h
    exact le_trans h (le_max_right _ _)

/-- Membership in a left fold of unions. -/
lemma mem_foldl_union (L : List (Finset ℕ)) (acc : Finset ℕ) (i : ℕ) :
    i ∈ L.foldl (fun a s => a ∪ s) acc ↔ i ∈ acc ∨ ∃ s ∈ L, i ∈ s := by
  induction L generalizing acc with
  | nil => simp
  | cons h t ih =>
      rw [List.foldl_cons, ih]
      simp only [Finset.mem_union, List.mem_cons]
      constructor
      · rintro (( ha | hh) | ⟨s, hs, hi⟩)
        · exact Or.inl ha
        · exact Or.inr ⟨h, Or.inl rfl, hh⟩
        · exact Or.inr ⟨s, Or.inr hs, hi⟩
      · rintro (ha | ⟨s, (rfl | hs), hi⟩)
        · exact Or.inl (Or.inl ha)
        · exact Or.inl (Or.inr hi)
        · exact Or.inr ⟨s, hs, hi⟩

/-- Membership in the parsed locked-slot set of the ledger. -/
lemma mem_parse_paid (ledger : List LedgerRow) (regId : String) (i : ℕ) :
    i ∈ _parse_paid_installments_from_ledger ledger regId
      ↔ ∃ r ∈ ledger, r.registration_id = regId ∧ i ∈ rowSlots r := by
  unfold _parse_paid_installments_from_ledger
  rw [mem_foldl_union]
  simp only [Finset.not_mem_empty, false_or, List.mem_map, List.mem_filter]
  constructor
  · rintro ⟨s, ⟨r, ⟨hr, hid⟩, rfl⟩, hi⟩
    exact ⟨r, hr, by simpa using hid, hi⟩
  · rintro ⟨r, hr, hid, hi⟩
    exact ⟨rowSlots r, ⟨r, ⟨hr, by simpa using hid⟩, rfl⟩, hi⟩


/-- Slots selected on the page are disjoint from the locked slots. -/
lemma instSelected_disjoint (chosen locked : Finset ℕ) :
    Disjoint (instSelected chosen locked) locked := by
  rw [Finset.disjoint_left]
  intro i hi
  rw [instSelected, Finset.mem_filter] at hi
  exact hi.2.2

/-- Unfolding of the decision on a full-payment proposal. -/
lemma validate_full_eq (fee paid : ℚ) (locked : Finset ℕ) :
    validate_and_price fee paid locked Proposal.full
      = if 0 < fullAmount fee paid then some (fullAmount fee paid, (∅ : Finset ℕ)) else none := rfl

/-- Unfolding of the decision on an installment proposal. -/
lemma validate_installments_eq (fee paid : ℚ) (locked chosen : Finset ℕ) :
    validate_and_price fee paid locked (Proposal.installments chosen)
      = if 0 < fee ∧ eps < qsub (qadd paid (instAmount chosen locked)) fee then none
        else if 0 < instAmount chosen locked ∧ (instSelected chosen locked).Nonempty then
          some (instAmount chosen locked, instSelected chosen locked)
        else none := rfl

/-- Shape of an accepted installment decision. -/
lemma validate_installments_accepted (fee paid : ℚ) (locked chosen : Finset ℕ) (amt : ℚ)
    (sl : Finset ℕ)
    (hacc : validate_and_price fee paid locked (Proposal.installments chosen) = some (amt, sl)) :
    amt = instAmount chosen locked ∧ sl = instSelected chosen locked
      ∧ 0 < instAmount chosen locked ∧ (instSelected chosen locked).Nonempty := by
  rw [validate_installments_eq] at hacc
  split_ifs at hacc with h1 h2
  · rw [Option.some.injEq, Prod.mk.injEq] at hacc
    exact ⟨hacc.1.symm, hacc.2.symm, h2⟩

/-- An accepted proposal appends the amount and slots and bumps the cache. -/
lemma applyPayment_of_accept (fee : ℚ) (st : PayState) (p : Proposal) (amt : ℚ) (sl : Finset ℕ)
    (h : validate_and_price fee st.paidCached (lockedOf st) p = some (amt, sl)) :
    applyPayment fee st p
      = ⟨qadd st.paidCached amt, st.amounts ++ [amt], st.slots ++ [sl]⟩ := by
  rw [applyPayment, h]

/-- A rejected proposal leaves the session state unchanged. -/
lemma applyPayment_of_reject (fee : ℚ) (st : PayState) (p : Proposal)
    (h : validate_and_price fee st.paidCached (lockedOf st) p = none) :
    applyPayment fee st p = st := by
  rw [applyPayment, h]

lemma payInv_init (fee : ℚ) (hfee : 0 < fee) : PayInv fee initState := by
  constructor
  · rfl
  · have := eps_pos
    simp only [initState, List.sum_nil]
    linarith

lemma payInv_step (fee : ℚ) (hfee : 0 < fee) (st : PayState) (p : Proposal)
    (h : PayInv fee st) : PayInv fee (applyPayment fee st p) := by
  obtain ⟨h1, h2⟩ := h
  rcases hv : validate_and_price fee st.paidCached (lockedOf st) p with _ | ⟨amt, sl⟩
  · rw [applyPayment_of_reject fee st p hv]
    exact ⟨h1, h2⟩
  · rw [applyPayment_of_accept fee st p amt sl hv]
    have hbound : st.paidCached + amt ≤ fee + eps := by
      cases p with
      | full =>
          rw [validate_full_eq] at hv
          split_ifs at hv with hamt
          rw [Option.some.injEq, Prod.mk.injEq] at hv
          obtain ⟨hamt2, -⟩ := hv
          subst hamt2
          have hle : fullAmount fee st.paidCached ≤ pageRemaining fee st.paidCached := by
            rw [fullAmount, if_pos hfee]
            exact min_le_right _ _
          have hpos : 0 < pageRemaining fee st.paidCached := lt_of_lt_of_le hamt hle
          have hrem : pageRemaining fee st.paidCached = fee - st.paidCached := by
            rcases le_or_lt (fee - st.paidCached) 0 with hc | hc
            · rw [pageRemaining, qsub_eq, max_eq_right hc] at hpos
              exact absurd hpos (lt_irrefl 0)
            · rw [pageRemaining, qsub_eq]
              exact max_eq_left hc.le
          rw [hrem] at hle
          have := eps_pos
          linarith
      | installments chosen =>
          rw [validate_installments_eq] at hv
          split_ifs at hv with hover hsel
          rw [Option.some.injEq, Prod.mk.injEq] at hv
          obtain ⟨hamt2, -⟩ := hv
          subst hamt2
          have hno : ¬(0 < fee ∧ eps < qsub (qadd st.paidCached (instAmount chosen (lockedOf st))) fee) := hover
          rw [not_and] at hno
          have := hno hfee
          rw [not_lt, qsub_eq, qadd_eq] at this
          linarith
    constructor
    · rw [qadd_eq, h1, List.sum_append, List.sum_cons, List.sum_nil, add_zero]
    · rw [List.sum_append, List.sum_cons, List.sum_nil, add_zero, ← h1]
      exact hbound

lemma payInv_foldl (fee : ℚ) (hfee : 0 < fee) (ps : List Proposal) (st : PayState)
    (h : PayInv fee st) : PayInv fee (ps.foldl (applyPayment fee) st) := by
  induction ps generalizing st with
  | nil => exact h
  | cons p t ih => exact ih _ (payInv_step fee hfee st p h)

/-- Every slot set recorded in a session is contained in the locked set. -/
lemma subset_lockedOf (st : PayState) (s : Finset ℕ) (hs : s ∈ st.slots) :
    s ⊆ lockedOf st := by
  intro i hi
  rw [lockedOf, mem_foldl_union]
  exact Or.inr ⟨s, hs, hi⟩

/-- One step preserves pairwise disjointness of the recorded slot sets. -/
lemma pairwise_step (fee : ℚ) (st : PayState) (p : Proposal)
    (h : st.slots.Pairwise (fun s t => Disjoint s t)) :
    (applyPayment fee st p).slots.Pairwise (fun s t => Disjoint s t) := by
  rcases hv : validate_and_price fee st.paidCached (lockedOf st) p with _ | ⟨amt, sl⟩
  · rw [applyPayment_of_reject fee st p hv]
    exact h
  · rw [applyPayment_of_accept fee st p amt sl hv]
    show (st.slots ++ [sl]).Pairwise (fun s t => Disjoint s t)
    rw [List.pairwise_append]
    refine ⟨h, List.pairwise_singleton _ _, ?_⟩
    intro s hs b hb
    have hb2 : b = sl := List.mem_singleton.mp hb
    show Disjoint s b
    rw [hb2]
    cases p with
    | full =>
        rw [validate_full_eq] at hv
        split_ifs at hv with h1
        rw [Option.some.injEq, Prod.mk.injEq] at hv
        rw [← hv.2]
        simp
    | installments chosen =>
        obtain ⟨-, hsl, -, -⟩ :=
          validate_installments_accepted fee st.paidCached (lockedOf st) chosen amt sl hv
        rw [hsl]
        exact Finset.disjoint_of_subset_left (subset_lockedOf st s hs)
          (instSelected_disjoint chosen (lockedOf st)).symm

lemma pairwise_foldl (fee : ℚ) (ps : List Proposal) (st : PayState)
    (h : st.slots.Pairwise (fun s t => Disjoint s t)) :
    ((ps.foldl (applyPayment fee) st).slots).Pairwise (fun s t => Disjoint s t) := by
  induction ps generalizing st with
  | nil => exact h
  | cons p t ih => exact ih _ (pairwise_step fee st p h)

/-- Deleting the first occurrence of a receipt whose id does not occur
earlier behaves like removing that element. -/
lemma eraseReceipt_append (A B : List LedgerRow) (t : LedgerRow)
    (hA : ∀ r ∈ A, r.receipt_id ≠ t.receipt_id) :
    eraseReceipt (A ++ t :: B) t.receipt_id = A ++ B := by
  induction A with
  | nil => simp [eraseReceipt]
  | cons r rs ih =>
      have hr : (r.receipt_id == t.receipt_id) = false := by
        rw [beq_eq_false_iff_ne]
        exact hA r (List.mem_cons_self r rs)
      rw [List.cons_append, eraseReceipt, hr]
      simp only [Bool.false_eq_true, if_false, List.cons_append, List.cons.injEq, true_and]
      exact ih (fun x hx => hA x (List.mem_cons_of_mem r hx))

/-- After an upsert, looking up the upserted row's id finds exactly it. -/
lemma findMaster_upsert (master : List MasterRow) (row : MasterRow) (regId : String)
    (h : row.registration_id = regId) :
    findMaster (upsertMaster master row) regId = some row := by
  induction master with
  | nil =>
      rw [upsertMaster, findMaster, List.find?]
      rw [show (row.registration_id == regId) = true from beq_iff_eq.mpr h]
  | cons r rs ih =>
      rw [upsertMaster]
      by_cases hr : r.registration_id = row.registration_id
      · rw [if_pos (beq_iff_eq.mpr hr), findMaster, List.find?]
        rw [show (row.registration_id == regId) = true from beq_iff_eq.mpr h]
      · rw [if_neg (by simpa [beq_iff_eq] using hr), findMaster, List.find?]
        rw [show (r.registration_id == regId) = false from
          beq_eq_false_iff_ne.mpr (fun hc => hr (hc.trans h.symm))]
        exact ih

/-- The effective fee computed by the recomputation is always positive. -/
lemma recalcEff_pos (master : List MasterRow) (reg : List RegRow) (regId : String) :
    0 < recalcEff master reg regId := by
  rw [recalcEff]
  split
  · split_ifs with h1 h2
    · exact h2
    · exact FULL_PRICE_pos
    · push_neg at h1
      exact h1
  · split
    · split_ifs with h2
      · exact h2
      · exact FULL_PRICE_pos
    · exact FULL_PRICE_pos

/-- Summing defaulted parses equals summing only the successful parses. -/
lemma sum_to_float_eq_filterMap (L : List LedgerRow) :
    (L.map (fun r => _to_float r.amount)).sum
      = (L.filterMap (fun r => pyNumber r.amount)).sum := by
  induction L with
  | nil => rfl
  | cons r t ih =>
      rw [List.map_cons, List.sum_cons, List.filterMap_cons]
      cases hp : pyNumber r.amount with
      | none =>
          show _to_float r.amount + _ = (List.filterMap (fun r => pyNumber r.amount) t).sum
          have h0 : _to_float r.amount = 0 := by rw [_to_float, hp]
          rw [h0, zero_add, ih]
      | some q =>
          show _to_float r.amount + _ = (q :: List.filterMap (fun r => pyNumber r.amount) t).sum
          have hq : _to_float r.amount = q := by rw [_to_float, hp]
          rw [hq, List.sum_cons, ih]

/-! ### Claim theorems -/

/-- C1: for a fixed positive effective fee, over any sequence of
payment-page saves starting from a fresh student, the cumulative sum of
accepted amounts stays at or below full_fee + 1e-6 after every step; and
an installment proposal whose amount would push the paid-to-date used for
the decision more than 1e-6 above the fee is rejected by the overpayment
guard (tac_admin_app.py 600-602). -/
theorem C1_no_overpayment (fee paid : ℚ) (locked chosen : Finset ℕ) (ps : List Proposal)
    (n : ℕ) (hfee : 0 < fee)
    (hover : eps < qsub (qadd paid (instAmount chosen locked)) fee) :
    validate_and_price fee paid locked (Proposal.installments chosen) = none
    ∧ (((ps.take n).foldl (applyPayment fee) initState).amounts).sum ≤ fee + eps := by
  constructor
  · rw [validate_installments_eq, if_pos ⟨hfee, hover⟩]
  · exact (payInv_foldl fee hfee (ps.take n) initState (payInv_init fee hfee)).2

/-- Witness for C1: fee 90, a fully paid student, a one-slot proposal that
would overshoot, and the one-step sequence of a single full payment. -/
theorem C1_no_overpayment_witness :
    (0 < (90 : ℚ) ∧ eps < qsub (qadd 90 (instAmount {1} (∅ : Finset ℕ))) 90)
    ∧ (validate_and_price 90 90 (∅ : Finset ℕ) (Proposal.installments {1}) = none
       ∧ ((([Proposal.full].take 1).foldl (applyPayment 90) initState).amounts).sum ≤ 90 + eps) :=
  ⟨⟨by decide, by decide⟩,
    C1_no_overpayment 90 90 (∅ : Finset ℕ) ({1} : Finset ℕ) [Proposal.full] 1
      (by decide) (by decide)⟩

/-- C2: the recomputed snapshot (recalc_master_for_registration,
tac_admin_app.py 707-760) has paid_to_date equal to the sum of the
student's live ledger amounts, remaining = max(fee - paid, 0), and the
status cascade: Completed exactly when remaining is within 1e-6 of 0;
otherwise Unpaid exactly when paid_to_date = 0; otherwise Installments
(the priority reading of the spec's "Completed iff …, Unpaid iff …, else
Installments", which is the only reading the three clauses jointly
admit). -/
theorem C2_snapshot_recomputation (master : List MasterRow) (ledger : List LedgerRow)
    (regId : String) (reg : List RegRow) :
    totalPaid ledger regId
        = ((ledger.filter (fun r => r.registration_id == regId)).map
            (fun r => _to_float r.amount)).sum
    ∧ recalcRemaining master ledger regId reg
        = max (recalcEff master reg regId - totalPaid ledger regId) 0
    ∧ (recalcStatus master ledger regId reg = "Completed"
        ↔ recalcRemaining master ledger regId reg ≤ eps)
    ∧ (recalcStatus master ledger regId reg = "Unpaid"
        ↔ (¬ recalcRemaining master ledger regId reg ≤ eps ∧ totalPaid ledger regId = 0))
    ∧ (recalcStatus master ledger regId reg = "Installments"
        ↔ (¬ recalcRemaining master ledger regId reg ≤ eps ∧ totalPaid ledger regId ≠ 0)) := by
  have h0 : 0 ≤ recalcRemaining master ledger regId reg := le_max_right _ _
  have hiff := isclose0_nonneg_iff (recalcRemaining master ledger regId reg) h0
  refine ⟨by rw [totalPaid, qsum_eq], by rw [recalcRemaining, qsub_eq], ?_, ?_, ?_⟩
  · rw [recalcStatus]
    split_ifs with h1 h2
    · exact iff_of_true rfl (hiff.mp h1)
    · exact iff_of_false (by decide) (fun hc => h1 (hiff.mpr hc))
    · exact iff_of_false (by decide) (fun hc => h1 (hiff.mpr hc))
  · rw [recalcStatus]
    split_ifs with h1 h2
    · exact iff_of_false (by decide) (fun hc => hc.1 (hiff.mp h1))
    · exact iff_of_true rfl ⟨fun hc => h1 (hiff.mpr hc), h2⟩
    · exact iff_of_false (by decide) (fun hc => h2 hc.2)
  · rw [recalcStatus]
    split_ifs with h1 h2
    · exact iff_of_false (by decide) (fun hc => hc.1 (hiff.mp h1))
    · exact iff_of_false (by decide) (fun hc => hc.2 h2)
    · exact iff_of_true rfl ⟨fun hc => h1 (hiff.mpr hc), h2⟩

/-- C3 counterexample: with a stale master snapshot (Paid_To_Date "0.00")
while the student's ledger already sums to 90.00, the page accepts an
installment proposal that the decision against the live ledger sum
rejects — the engine does NOT recompute paid_to_date from the ledger
(tac_admin_app.py 562 reads the cached master row). -/
theorem C3_counterexample :
    pageValidate c3Master c3Ledger ("S1") 0 (Proposal.installments {1})
        = some (15, ({1} : Finset ℕ))
    ∧ validate_and_price (effectiveTotalFee (pageExistingTotal c3Master ("S1")) 0)
        (totalPaid c3Ledger ("S1"))
        (_parse_paid_installments_from_ledger c3Ledger ("S1"))
        (Proposal.installments {1}) = none := by
  constructor
  · decide
  · decide

/-- C3 amended: the validation decision is taken against the cached master
snapshot's Paid_To_Date (treated as 0 for an absent student); whenever that
cached value equals the live ledger sum — which every in-app write path
maintains — the decision coincides with the decision against the live
ledger sum. -/
theorem C3_amended_cached_decision (master : List MasterRow) (ledger : List LedgerRow)
    (regId : String) (regTotal : ℚ) (p : Proposal)
    (hsync : pagePaidToDate master regId = totalPaid ledger regId) :
    pageValidate master ledger regId regTotal p
      = validate_and_price (effectiveTotalFee (pageExistingTotal master regId) regTotal)
          (totalPaid ledger regId) (_parse_paid_installments_from_ledger ledger regId) p := by
  rw [pageValidate, hsync]

/-- Witness for the amended C3 at a synchronized snapshot. -/
theorem C3_amended_witness :
    pagePaidToDate c3SyncedMaster ("S1") = totalPaid c3Ledger ("S1")
    ∧ pageValidate c3SyncedMaster c3Ledger ("S1") 0 Proposal.full
        = validate_and_price (effectiveTotalFee (pageExistingTotal c3SyncedMaster ("S1")) 0)
            (totalPaid c3Ledger ("S1")) (_parse_paid_installments_from_ledger c3Ledger ("S1"))
            Proposal.full :=
  ⟨by decide, C3_amended_cached_decision c3SyncedMaster c3Ledger ("S1") 0 Proposal.full (by decide)⟩

/-- C4 counterexample: an installment proposal that includes the
already-locked slot 1 is NOT rejected as DuplicateSlot; the locked slot is
silently dropped from the selection and the remaining slot is accepted
(the checkbox for a paid slot is disabled and filtered out,
tac_admin_app.py 591-596). -/
theorem C4_counterexample :
    validate_and_price 90 15 ({1} : Finset ℕ) (Proposal.installments {1, 2})
        = some (15, ({2} : Finset ℕ))
    ∧ (1 : ℕ) ∈ ({1, 2} : Finset ℕ) ∩ ({1} : Finset ℕ) := by
  constructor
  · decide
  · decide

/-- C4 amended: locked slots are excluded from the selection rather than
causing rejection, so an accepted installment payment's slot set is
disjoint from the locked set and nonempty (an empty selection disables the
save); the locked-slot set is the union of the slots over the student's
ledger rows; and over any payment session the recorded slot sets are
pairwise disjoint. -/
theorem C4_amended_slot_exclusivity (fee paid : ℚ) (locked chosen : Finset ℕ) (amt : ℚ)
    (sl : Finset ℕ) (ledger : List LedgerRow) (regId : String) (i : ℕ) (ps : List Proposal)
    (hacc : validate_and_price fee paid locked (Proposal.installments chosen) = some (amt, sl)) :
    Disjoint sl locked ∧ sl.Nonempty
    ∧ (i ∈ _parse_paid_installments_from_ledger ledger regId
        ↔ ∃ r ∈ ledger, r.registration_id = regId ∧ i ∈ rowSlots r)
    ∧ (((ps.foldl (applyPayment fee) initState).slots).Pairwise (fun s t => Disjoint s t)) := by
  obtain ⟨ha, hsl, hpos, hne⟩ := validate_installments_accepted fee paid locked chosen amt sl hacc
  refine ⟨?_, ?_, mem_parse_paid ledger regId i, ?_⟩
  · rw [hsl]
    exact instSelected_disjoint chosen locked
  · rw [hsl]
    exact hne
  · exact pairwise_foldl fee ps initState List.Pairwise.nil

/-- Witness for the amended C4: a fresh student accepts slots {1,2}. -/
theorem C4_amended_witness :
    validate_and_price 90 0 (∅ : Finset ℕ) (Proposal.installments {1, 2})
        = some (30, ({1, 2} : Finset ℕ))
    ∧ (Disjoint ({1, 2} : Finset ℕ) (∅ : Finset ℕ) ∧ ({1, 2} : Finset ℕ).Nonempty
       ∧ ((3 : ℕ) ∈ _parse_paid_installments_from_ledger [] ("S9")
            ↔ ∃ r ∈ ([] : List LedgerRow), r.registration_id = "S9" ∧ (3 : ℕ) ∈ rowSlots r)
       ∧ ((([] : List Proposal).foldl (applyPayment 90) initState).slots).Pairwise
            (fun s t => Disjoint s t)) :=
  ⟨by decide,
    C4_amended_slot_exclusivity 90 0 (∅ : Finset ℕ) ({1, 2} : Finset ℕ) 30
      ({1, 2} : Finset ℕ) [] ("S9") 3 [] (by decide)⟩

/-- C5: the full-payment amount is not operator-supplied: with the (always
positive) effective fee it equals min(FULL_PRICE, max(fee - paid, 0));
concretely, at fee 90 with no prior payment the accepted amount is exactly
90 and the resulting status is Completed (tac_admin_app.py 584-587 and
611-613). -/
theorem C5_full_payment (fee paid existingTotal regTotal : ℚ) (hfee : 0 < fee) :
    0 < effectiveTotalFee existingTotal regTotal
    ∧ fullAmount fee paid = min FULL_PRICE (max (fee - paid) 0)
    ∧ validate_and_price 90 0 (∅ : Finset ℕ) Proposal.full = some (90, (∅ : Finset ℕ))
    ∧ newStatusAfterAccept 90 (qadd 0 90) = "Completed" := by
  refine ⟨?_, ?_, by decide, by decide⟩
  · rw [effectiveTotalFee]
    split_ifs with h1 h2
    · exact h1
    · exact h2
    · exact FULL_PRICE_pos
  · rw [fullAmount, if_pos hfee, pageRemaining, qsub_eq]

/-- Witness for C5 at fee 90, no prior payment. -/
theorem C5_full_payment_witness :
    0 < (90 : ℚ)
    ∧ (0 < effectiveTotalFee 90 0
       ∧ fullAmount 90 0 = min FULL_PRICE (max ((90 : ℚ) - 0) 0)
       ∧ validate_and_price 90 0 (∅ : Finset ℕ) Proposal.full = some (90, (∅ : Finset ℕ))
       ∧ newStatusAfterAccept 90 (qadd 0 90) = "Completed") :=
  ⟨by decide, C5_full_payment 90 0 90 0 (by decide)⟩

/-- C6: deleting a transaction (whose receipt id does not occur earlier in
the ledger, as receipt ids are unique) followed by recomputation gives
exactly the recomputation over the ledger without that transaction, the
locked-slot set is re-derived from the remaining rows, and — given the
slot-exclusivity invariant — every slot of the deleted transaction is
unlocked again. -/
theorem C6_deletion_reversibility (A B : List LedgerRow) (t : LedgerRow)
    (master : List MasterRow) (reg : List RegRow) (regId now : String)
    (hA : ∀ r ∈ A, r.receipt_id ≠ t.receipt_id)
    (hdisj : ∀ r ∈ A ++ B, r.registration_id = t.registration_id →
        Disjoint (rowSlots r) (rowSlots t)) :
    eraseReceipt (A ++ t :: B) t.receipt_id = A ++ B
    ∧ recalcMasterRow master (eraseReceipt (A ++ t :: B) t.receipt_id) regId reg now
        = recalcMasterRow master (A ++ B) regId reg now
    ∧ _parse_paid_installments_from_ledger (eraseReceipt (A ++ t :: B) t.receipt_id)
          t.registration_id
        = _parse_paid_installments_from_ledger (A ++ B) t.registration_id
    ∧ ∀ i ∈ rowSlots t, i ∉ _parse_paid_installments_from_ledger (A ++ B) t.registration_id := by
  have he := eraseReceipt_append A B t hA
  refine ⟨he, by rw [he], by rw [he], ?_⟩
  intro i hi hmem
  rw [mem_parse_paid] at hmem
  obtain ⟨r, hr, hid, hir⟩ := hmem
  exact (Finset.disjoint_left.mp (hdisj r hr hid)) hir hi

/-- Witness for C6: deleting the slots-1,2 receipt from scenario 8 of the
spec; slots 1 and 2 unlock while 3,4,5,6 stay locked. -/
theorem C6_deletion_witness :
    ((∀ r ∈ ([] : List LedgerRow), r.receipt_id ≠ c6t.receipt_id)
      ∧ (∀ r ∈ ([] : List LedgerRow) ++ c6B, r.registration_id = c6t.registration_id →
          Disjoint (rowSlots r) (rowSlots c6t)))
    ∧ (eraseReceipt (([] : List LedgerRow) ++ c6t :: c6B) c6t.receipt_id = [] ++ c6B
       ∧ recalcMasterRow [] (eraseReceipt (([] : List LedgerRow) ++ c6t :: c6B) c6t.receipt_id)
             ("S1") [] ("2025-01-03 10:00")
           = recalcMasterRow [] ([] ++ c6B) ("S1") [] ("2025-01-03 10:00")
       ∧ _parse_paid_installments_from_ledger
             (eraseReceipt (([] : List LedgerRow) ++ c6t :: c6B) c6t.receipt_id)
             c6t.registration_id
           = _parse_paid_installments_from_ledger ([] ++ c6B) c6t.registration_id
       ∧ ∀ i ∈ rowSlots c6t,
           i ∉ _parse_paid_installments_from_ledger ([] ++ c6B) c6t.registration_id) :=
  ⟨⟨by decide, by decide⟩,
    C6_deletion_reversibility [] c6B c6t [] [] ("S1") ("2025-01-03 10:00")
      (by decide) (by decide)⟩

/-- C7 counterexample: running the recomputation twice with no ledger
change does NOT write the same master row: LastPaymentDate is stamped with
the wall-clock time of each run (tac_admin_app.py 757), so the two rows
differ. -/
theorem C7_counterexample :
    recalcMasterRow (upsertMaster []
        (recalcMasterRow [] c7Ledger ("S1") c7Reg ("2025-01-01 10:00")))
        c7Ledger ("S1") c7Reg ("2025-01-01 10:05")
      ≠ recalcMasterRow [] c7Ledger ("S1") c7Reg ("2025-01-01 10:00") := by decide

/-- C7 amended: with no intervening ledger change, the second recomputation
writes the same master row except for the LastPaymentDate stamp, provided
the effective fee survives the two-decimal round trip through the stored
Total_Fee cell (every app-written fee is a two-decimal value, for which
this holds). -/
theorem C7_amended_idempotent_fields (master : List MasterRow) (ledger : List LedgerRow)
    (regId : String) (reg : List RegRow) (now1 now2 : String)
    (hrt : _to_float (format2 (recalcEff master reg regId)) = recalcEff master reg regId) :
    recalcMasterRow (upsertMaster master (recalcMasterRow master ledger regId reg now1))
        ledger regId reg now2
      = { recalcMasterRow master ledger regId reg now1 with last_payment_date := now2 } := by
  set row1 := recalcMasterRow master ledger regId reg now1 with hrow1
  have hfind : findMaster (upsertMaster master row1) regId = some row1 :=
    findMaster_upsert master row1 regId rfl
  have heff : recalcEff (upsertMaster master row1) reg regId = recalcEff master reg regId := by
    rw [recalcEff, hfind]
    show (if _to_float row1.total_fee ≤ 0 then
            (if 0 < _to_float row1.total_fee then _to_float row1.total_fee else FULL_PRICE)
          else _to_float row1.total_fee) = recalcEff master reg regId
    have ht : _to_float row1.total_fee = recalcEff master reg regId := hrt
    rw [ht, if_neg (not_le.mpr (recalcEff_pos master reg regId))]
  have hrem : recalcRemaining (upsertMaster master row1) ledger regId reg
      = recalcRemaining master ledger regId reg := by
    rw [recalcRemaining, heff, recalcRemaining]
  have hstat : recalcStatus (upsertMaster master row1) ledger regId reg
      = recalcStatus master ledger regId reg := by
    rw [recalcStatus, hrem, recalcStatus]
  have hname : recalcName (upsertMaster master row1) reg regId = recalcName master reg regId := by
    rw [recalcName, hfind]
    rfl
  have hcourse : recalcCourse (upsertMaster master row1) reg regId
      = recalcCourse master reg regId := by
    rw [recalcCourse, hfind]
    rfl
  have hphone : recalcPhone (upsertMaster master row1) reg regId
      = recalcPhone master reg regId := by
    rw [recalcPhone, hfind]
    rfl
  have hplan : recalcPlan (upsertMaster master row1) regId = recalcPlan master regId := by
    rw [recalcPlan, hfind]
    rfl
  have hlast : recalcLastReceipt (upsertMaster master row1) regId
      = recalcLastReceipt master regId := by
    rw [recalcLastReceipt, hfind]
    rfl
  rw [recalcMasterRow, heff, hrem, hstat, hname, hcourse, hphone, hplan, hlast]
  rfl

/-- Witness for the amended C7 on a concrete one-payment ledger. -/
theorem C7_amended_witness :
    _to_float (format2 (recalcEff [] c7Reg ("S1"))) = recalcEff [] c7Reg ("S1")
    ∧ recalcMasterRow (upsertMaster [] (recalcMasterRow [] c7Ledger ("S1") c7Reg ("n1")))
        c7Ledger ("S1") c7Reg ("n2")
      = { recalcMasterRow [] c7Ledger ("S1") c7Reg ("n1") with last_payment_date := ("n2") } :=
  ⟨by decide, C7_amended_idempotent_fields [] c7Ledger ("S1") c7Reg ("n1") ("n2") (by decide)⟩

/-- C8 counterexample: editing receipt R2's slots to "1" collides with
receipt R1's slot 1 for the same student, yet the edit is accepted and
written — the edit path never compares against other rows' slots
(tac_admin_app.py 825-848). -/
theorem C8_counterexample :
    applyEdit c8Ledger ("R2") ("S1") ("2025-01-01 11:00") 15 ("Cash") ("") ("Admin") ("1")
      = [c8r1, ⟨"R2", "S1", "2025-01-01 11:00", "15.00", "Cash", "", "Admin", "1"⟩]
    ∧ (1 : ℕ) ∈ rowSlots c8r1 := by
  constructor
  · decide
  · decide

/-- C8 amended: the only gate on an edited slot list is the per-token range
check — acceptance holds exactly when every comma token is an all-digit
string with value in 1..MAX_INSTALLMENTS (slot collisions with other rows
are not checked) — and an edit rejected by that check leaves the ledger
unchanged. -/
theorem C8_amended_edit_validation (ledger : List LedgerRow) (rid regIdVal payDateVal : String)
    (amountVal : ℚ) (methodVal noteVal enteredByVal instVal : String)
    (hrej : editAccepted instVal = false) :
    applyEdit ledger rid regIdVal payDateVal amountVal methodVal noteVal enteredByVal instVal
        = ledger
    ∧ (editAccepted instVal = true
        ↔ ∀ t ∈ editTokens instVal,
            strIsDigits t = true ∧ 1 ≤ digitsToNat t ∧ digitsToNat t ≤ MAX_INSTALLMENTS) := by
  constructor
  · rw [applyEdit, hrej]
    simp
  · simp only [editAccepted, Bool.or_eq_true, List.isEmpty_iff, List.all_eq_true,
      Bool.and_eq_true, decide_eq_true_eq]
    constructor
    · rintro (hnil | hall)
      · intro t ht
        rw [hnil] at ht
        cases ht
      · intro t ht
        obtain ⟨⟨hd, h1⟩, h2⟩ := hall t ht
        exact ⟨hd, h1, h2⟩
    · intro hall
      right
      intro t ht
      obtain ⟨hd, h1, h2⟩ := hall t ht
      exact ⟨⟨hd, h1⟩, h2⟩

/-- Witness for the amended C8: slot "7" is out of range, so the edit is
rejected and the ledger is unchanged. -/
theorem C8_amended_witness :
    editAccepted ("7") = false
    ∧ (applyEdit c8Ledger ("R2") ("S1") ("2025-01-01 11:00") 15 ("Cash") ("") ("Admin") ("7")
          = c8Ledger
       ∧ (editAccepted ("7") = true
           ↔ ∀ t ∈ editTokens ("7"),
               strIsDigits t = true ∧ 1 ≤ digitsToNat t ∧ digitsToNat t ≤ MAX_INSTALLMENTS)) :=
  ⟨by decide,
    C8_amended_edit_validation c8Ledger ("R2") ("S1") ("2025-01-01 11:00") 15 ("Cash") ("")
      ("Admin") ("7") (by decide)⟩

/-- C9: an absent student in the snapshot store is treated as
paid_to_date = 0; an unknown/zero fee falls back to the configured
FULL_PRICE both on the payments page and in the recomputation (whose
effective fee is always positive); and the recomputation always resolves
to one of the three statuses — every modelled operation is total, so
nothing raises for a missing fee or an absent student. -/
theorem C9_fallbacks (master : List MasterRow) (ledger : List LedgerRow) (regId : String)
    (reg : List RegRow) (existingTotal regTotal : ℚ)
    (habs : findMaster master regId = none) (h1 : existingTotal ≤ 0) (h2 : regTotal ≤ 0) :
    pagePaidToDate master regId = 0
    ∧ effectiveTotalFee existingTotal regTotal = FULL_PRICE
    ∧ 0 < recalcEff master reg regId
    ∧ (recalcStatus master ledger regId reg = "Completed"
        ∨ recalcStatus master ledger regId reg = "Unpaid"
        ∨ recalcStatus master ledger regId reg = "Installments") := by
  refine ⟨?_, ?_, recalcEff_pos master reg regId, ?_⟩
  · rw [pagePaidToDate, habs]
  · rw [effectiveTotalFee, if_neg (not_lt.mpr h1), if_neg (not_lt.mpr h2)]
  · rw [recalcStatus]
    split_ifs
    · exact Or.inl rfl
    · exact Or.inr (Or.inl rfl)
    · exact Or.inr (Or.inr rfl)

/-- Witness for C9: an empty snapshot store and zero fees. -/
theorem C9_fallbacks_witness :
    (findMaster ([] : List MasterRow) ("S9") = none ∧ (0 : ℚ) ≤ 0 ∧ (0 : ℚ) ≤ 0)
    ∧ (pagePaidToDate [] ("S9") = 0
       ∧ effectiveTotalFee 0 0 = FULL_PRICE
       ∧ 0 < recalcEff [] [] ("S9")
       ∧ (recalcStatus [] [] ("S9") [] = "Completed"
           ∨ recalcStatus [] [] ("S9") [] = "Unpaid"
           ∨ recalcStatus [] [] ("S9") [] = "Installments")) :=
  ⟨⟨by decide, by decide, by decide⟩,
    C9_fallbacks [] [] ("S9") [] 0 0 (by decide) (by decide) (by decide)⟩

/-- C10: _to_float is total and returns the default 0.0 on any string that
does not parse as a number, so the recomputed paid_to_date equals the sum
of only the parseable Amount cells — a corrupt amount contributes nothing
and nothing raises. -/
theorem C10_malformed_amounts (s : String) (ledger : List LedgerRow) (regId : String)
    (hbad : pyNumber s = none) :
    _to_float s = 0
    ∧ totalPaid ledger regId
        = ((ledger.filter (fun r => r.registration_id == regId)).filterMap
            (fun r => pyNumber r.amount)).sum := by
  constructor
  · rw [_to_float, hbad]
  · rw [totalPaid, qsum_eq, sum_to_float_eq_filterMap]

/-- Witness for C10: the corrupt cell "oops" contributes nothing. -/
theorem C10_malformed_amounts_witness :
    pyNumber ("oops") = none
    ∧ (_to_float ("oops") = 0
       ∧ totalPaid c10Ledger ("S1")
           = ((c10Ledger.filter (fun r => r.registration_id == "S1")).filterMap
               (fun r => pyNumber r.amount)).sum) :=
  ⟨by decide, C10_malformed_amounts ("oops") c10Ledger ("S1") (by decide)⟩

end TAC
